import Mathlib

/-!
# types-publisher: webhook server and fetcher

A shallow embedding of `bin/lib/webhook-server.js` and of `Fetcher.fetch`,
`doRequest` and `stringOfStream` from `bin/util/io.js`.

JavaScript runs these functions on a single-threaded event loop.  An `async`
function runs synchronously up to its first `await`; the code after an `await`
runs as one uninterrupted step when the awaited promise settles.  The models
below therefore use one atomic step per event-loop turn.
-/

namespace TypesPublisher

/-! ## `updateOneAtATime` (webhook-server.js, lines 83-108) -/

/-- The closure state of one `updateOneAtATime(doOnce)` instance, together with
what an observer can see of it.  A trigger's arguments `(log, timeStamp)` are
identified by one number `ctx`. -/
structure Coalescer where
  /-- `let working` -/
  working : Bool
  /-- `let anyUpdatesWhileWorking` -/
  anyUpdatesWhileWorking : Bool
  /-- The `work()` activations suspended at `await doOnce(log, timeStamp)`, each
  with the `ctx` it closes over.  Each one has exactly one `doOnce` body in
  progress. -/
  awaiting : List Nat
  /-- Every call `doOnce(log, timeStamp)` made so far, oldest first. -/
  calls : List Nat
  /-- Every `log.info` line so far, with the `ctx` whose logger received it. -/
  logged : List (Nat × String)
deriving DecidableEq, Repr

/-- One turn of the event loop, as seen by a coalescer. -/
inductive Event where
  /-- the returned closure is called with `(log, timeStamp) = ctx` -/
  | trigger (ctx : Nat)
  /-- the `doOnce` promise awaited by the `i`-th suspended `work()` resolves -/
  | resolve (i : Nat)
  /-- the `doOnce` promise awaited by the `i`-th suspended `work()` rejects -/
  | reject (i : Nat)
deriving DecidableEq, Repr

/-- `updateOneAtATime(doOnce)`: both flags start `false`, nothing is running. -/
def updateOneAtATime : Coalescer :=
  { working := false, anyUpdatesWhileWorking := false, awaiting := [], calls := [], logged := [] }

/-- `work()` from its first line to the first `await doOnce(log, timeStamp)`. -/
def updateOneAtATime.work (s : Coalescer) (ctx : Nat) : Coalescer :=
  { working := true
    anyUpdatesWhileWorking := false
    awaiting := s.awaiting ++ [ctx]
    calls := s.calls ++ [ctx]
    logged := s.logged ++ [(ctx, "Starting update")] }

/-- The closure returned by `updateOneAtATime`, called with `ctx`. -/
def updateOneAtATime.call (s : Coalescer) (ctx : Nat) : Coalescer :=
  if s.working then
    { s with
      anyUpdatesWhileWorking := true
      logged := s.logged ++ [(ctx, "Not starting update, because already performing one.")] }
  else
    updateOneAtATime.work { s with working := false, anyUpdatesWhileWorking := false } ctx

/-- The rest of the `do ... while` body after `await doOnce(...)` resolves in the
`i`-th suspended `work()`: `working = false`, then the loop test, then either
the next `doOnce` call or the end of that `work()`. -/
def updateOneAtATime.resume (s : Coalescer) (i : Nat) : Coalescer :=
  match s.awaiting.get? i with
  | none => s
  | some ctx =>
    if s.anyUpdatesWhileWorking then
      { s with working := false, calls := s.calls ++ [ctx] }
    else
      { s with working := false, awaiting := s.awaiting.eraseIdx i }

/-- The `i`-th suspended `work()` when its `doOnce` promise rejects: the `await`
throws, nothing after it runs, and the promise of `work()` rejects. -/
def updateOneAtATime.abort (s : Coalescer) (i : Nat) : Coalescer :=
  { s with awaiting := s.awaiting.eraseIdx i }

/-- One event-loop turn. -/
def Coalescer.step (s : Coalescer) : Event → Coalescer
  | .trigger ctx => updateOneAtATime.call s ctx
  | .resolve i => updateOneAtATime.resume s i
  | .reject i => updateOneAtATime.abort s i

/-- A sequence of event-loop turns, in order. -/
def Coalescer.run (s : Coalescer) (es : List Event) : Coalescer :=
  es.foldl Coalescer.step s

/-- Number of `doOnce` bodies in progress. -/
def Coalescer.inProgress (s : Coalescer) : Nat := s.awaiting.length

/-- One trigger while idle, then `n` triggers during the run, then `k`
resolutions of the running job, with no further trigger. -/
def burst (n k : Nat) : List Event :=
  Event.trigger 0 :: (List.replicate n (Event.trigger 1) ++ List.replicate k (Event.resolve 0))

/-! ## Strings and buffers

Header values reach the handler decoded as latin-1 and the body is produced by a
UTF-8 `StringDecoder`, so every JavaScript string here is a sequence of Unicode
scalar values: a Lean `String`. -/

/-- JavaScript `s.length`: the number of UTF-16 code units. -/
def jsLength (s : String) : Nat :=
  (s.data.map fun c => if c.toNat < 0x10000 then 1 else 2).sum

/-- The UTF-8 bytes of one character. -/
def utf8Char (c : Char) : List Nat :=
  let n := c.toNat
  if n < 0x80 then [n]
  else if n < 0x800 then [0xC0 + n / 64, 0x80 + n % 64]
  else if n < 0x10000 then [0xE0 + n / 4096, 0x80 + n / 64 % 64, 0x80 + n % 64]
  else [0xF0 + n / 262144, 0x80 + n / 4096 % 64, 0x80 + n / 64 % 64, 0x80 + n % 64]

/-- `Buffer.from(s)`: the UTF-8 bytes of `s`. -/
def Buffer.ofString (s : String) : List Nat :=
  s.data.flatMap utf8Char

/-- `Buffer.alloc(size)`: `size` zero bytes. -/
def Buffer.alloc (size : Nat) : List Nat :=
  List.replicate size 0

/-- The bytes `buf.write(s)` stores when `room` bytes are free: whole characters
only, stopping at the first character that does not fit. -/
def Buffer.written (room : Nat) : List Char → List Nat
  | [] => []
  | c :: cs =>
    if (utf8Char c).length ≤ room then
      utf8Char c ++ Buffer.written (room - (utf8Char c).length) cs
    else []

/-- `buf.write(s)`: the buffer afterwards (same size, a prefix overwritten). -/
def Buffer.write (buf : List Nat) (s : String) : List Nat :=
  Buffer.written buf.length s.data ++ buf.drop (Buffer.written buf.length s.data).length

/-- `crypto.timingSafeEqual(a, b)`: throws when the lengths differ. -/
def timingSafeEqual (a b : List Nat) : Except String Bool :=
  if a.length ≠ b.length then .error "Input buffers must have the same length"
  else .ok (a == b)

/-- JavaScript `text.includes(pattern)`, also what `/A|B/.test(text)` does for
each literal alternative. -/
def includes (pattern : List Char) : List Char → Bool
  | [] => pattern.isEmpty
  | c :: cs => pattern.isPrefixOf (c :: cs) || includes pattern cs

/-! ## Signature check (webhook-server.js, lines 109-134) -/

/-- One lowercase hexadecimal digit. -/
def hexDigit (n : Nat) : Char :=
  match n % 16 with
  | 0 => '0' | 1 => '1' | 2 => '2' | 3 => '3' | 4 => '4' | 5 => '5' | 6 => '6' | 7 => '7'
  | 8 => '8' | 9 => '9' | 10 => 'a' | 11 => 'b' | 12 => 'c' | 13 => 'd' | 14 => 'e'
  | _ => 'f'

/-- `digest("hex")` of a list of bytes. -/
def hex (bytes : List Nat) : String :=
  ⟨bytes.flatMap fun b => [hexDigit (b / 16), hexDigit b]⟩

/-- A value of `req.headers[name]`. -/
inductive HeaderValue where
  | str (s : String)
  | list (items : List String)
deriving DecidableEq, Repr

/-- `req.headers`. -/
abbrev Headers := List (String × HeaderValue)

/-- A value read out of parsed JSON, as far as `work` looks at it. -/
inductive JsValue where
  | undefined
  | string (s : String)
  /-- any other value, with the text a template literal shows for it -/
  | other (shown : String)
deriving DecidableEq, Repr

/-- What `parseJson(data)` can return, as far as `.ref` looks at it. -/
inductive Json where
  | null
  | object (fields : List (String × JsValue))
  /-- a boolean, number, string or array: it has no own property `ref` -/
  | other
deriving DecidableEq, Repr

/-- What the module imports and does not define: the HMAC-SHA1 of `crypto`
(`createHmac("sha1", key)`, `write(data)`, digest bytes), `parseJson` and
`currentTimeStamp` (a function of the clock, in milliseconds) of `../util/util`,
and `sourceBranch` of `./settings`. -/
structure Imports (κ : Type) where
  createHmac : κ → String → List Nat
  parseJson : String → Except String Json
  currentTimeStamp : Nat → String
  sourceBranch : String

/-- A line handed to the request's logger. -/
inductive LogLine where
  | info (text : String)
  | error (text : String)
  /-- `log.error` of "Headers are: " followed by `JSON.stringify(headers, undefined, 4)` -/
  | errorHeaders (headers : Headers)
  /-- `log.info` of "Message from github: ", `data.slice(0, 200)` and "..." -/
  | infoMessage (data : String)
deriving DecidableEq, Repr

/-- `expectedSignature(key, data)`. -/
def expectedSignature {κ : Type} (env : Imports κ) (key : κ) (data : String) : String :=
  let digest := hex (env.createHmac key data)
  "sha1=" ++ digest

/-- `stringEqualsConstantTime(actual, expected)`. -/
def stringEqualsConstantTime (actual expected : String) : Except String Bool :=
  let actualBuffer := Buffer.alloc (jsLength expected)
  let actualBuffer := Buffer.write actualBuffer actual
  timingSafeEqual actualBuffer (Buffer.ofString expected)

/-- The text a template literal shows for `headers["x-hub-signature"]`. -/
def showSignature : Option HeaderValue → String
  | none => "undefined"
  | some (.str s) => s
  | some (.list items) => ",".intercalate items

/-- `checkSignature(key, data, headers, log)`: the returned boolean and the lines
given to `log`, or the exception thrown. -/
def checkSignature {κ : Type} (env : Imports κ) (key : κ) (data : String) (headers : Headers) :
    Except String (Bool × List LogLine) :=
  let signature := headers.lookup "x-hub-signature"
  let expected := expectedSignature env key data
  let invalid : List LogLine :=
    [ .error ("Invalid request: expected " ++ expected ++ ", got " ++ showSignature signature),
      .errorHeaders headers,
      .error ("Data is: " ++ data),
      .error "" ]
  match signature with
  | some (.str s) =>
    match stringEqualsConstantTime s expected with
    | .error e => .error e
    | .ok true => .ok (true, [])
    | .ok false => .ok (false, invalid)
  | _ => .ok (false, invalid)

/-! ## Request handling (webhook-server.js, lines 28-82; io.js, lines 36-55) -/

/-- How a promise ends up. -/
inductive Promise (α : Type) where
  | resolved (value : α)
  | rejected (reason : String)
  | pending
deriving DecidableEq, Repr

/-- What the request stream does: an `error` event, an `end` event after the
decoder produced `body` in all, or neither. -/
inductive Stream where
  | error (reason : String)
  | ended (body : String)
  | stalled
deriving DecidableEq, Repr

/-- `stringOfStream(stream, description)`. -/
def stringOfStream (stream : Stream) (description : String) : Promise String :=
  match stream with
  | .error reason => .rejected reason
  | .stalled => .pending
  | .ended body =>
    if includes ['�'] body.data then
      .rejected ("Bad character decode in " ++ description)
    else
      .resolved body

/-- An incoming request. -/
structure Request where
  method : String
  headers : Headers
  stream : Stream
deriving DecidableEq, Repr

/-- `util.parseJson(data).ref`: reading a property of `null` throws. -/
def Json.ref : Json → Except String JsValue
  | .null => .error "TypeError: Cannot read property 'ref' of null"
  | .object fields => .ok ((fields.lookup "ref").getD .undefined)
  | .other => .ok .undefined

/-- The text a template literal shows for a value. -/
def JsValue.render : JsValue → String
  | .undefined => "undefined"
  | .string s => s
  | .other shown => shown

/-- What one call of `work()` did. -/
structure Work where
  /-- each `respond(text)`: `resp.write(text); resp.end()` -/
  responded : List String
  /-- the `timeStamp` of each call `onUpdate(log, timeStamp)` -/
  updates : List String
  /-- the lines `work` gave to `log` -/
  logged : List LogLine
  /-- the promise `work()` returned -/
  promise : Promise Unit
deriving DecidableEq, Repr

/-- `work()` inside `receiveUpdate`; `onUpdate` is how the awaited call
`onUpdate(log, timeStamp)` ends up. -/
def receiveUpdate.work {κ : Type} (env : Imports κ) (key : κ) (onUpdate : Promise Unit)
    (req : Request) (timeStamp : String) : Work :=
  match stringOfStream req.stream "Request to webhook" with
  | .pending => ⟨[], [], [], .pending⟩
  | .rejected reason => ⟨[], [], [], .rejected reason⟩
  | .resolved data =>
    match checkSignature env key data req.headers with
    | .error e => ⟨[], [], [], .rejected e⟩
    | .ok (false, lines) => ⟨[], [], lines, .resolved ()⟩
    | .ok (true, lines) =>
      let logged := lines ++ [.infoMessage data]
      let expectedRef := "refs/heads/" ++ env.sourceBranch
      match (env.parseJson data).bind Json.ref with
      | .error e => ⟨[], [], logged, .rejected e⟩
      | .ok actualRef =>
        if actualRef = .string expectedRef then
          ⟨["Thanks for the update! Running full."], [timeStamp], logged, onUpdate⟩
        else
          let text := "Ignoring push to " ++ actualRef.render ++ ", expected " ++ expectedRef ++ "."
          ⟨[text], [], logged ++ [.info text], .resolved ()⟩

/-- The rolling log: how the promise of `RollingLogs.create("webhook-logs.md", 1000)`
ends up, and how a `write` on it ends up. -/
structure RollingLogs where
  create : Promise Unit
  write : Promise Unit
deriving DecidableEq, Repr

/-- `rollingLogs.then(logs => writeLog(logs, logResult()))`: the batches written
and the resulting promise. -/
def writeLog (rollingLogs : RollingLogs) (logResult : List LogLine) :
    List (List LogLine) × Promise Unit :=
  match rollingLogs.create with
  | .resolved _ => ([logResult], rollingLogs.write)
  | .rejected reason => ([], .rejected reason)
  | .pending => ([], .pending)

/-- What handling one request did. -/
structure Handled where
  responded : List String
  updates : List String
  /-- the batches of log lines given to `rollingLogs.write` -/
  written : List (List LogLine)
  /-- whether `onError` ran, that is `server.close()` -/
  closed : Bool
deriving DecidableEq, Repr

/-- `receiveUpdate(req, resp)` at clock reading `now`.  `thrown` is an exception
raised inside the `try` block, by `log.info("Before starting work")`, if any. -/
def receiveUpdate {κ : Type} (env : Imports κ) (key : κ) (onUpdate : Promise Unit)
    (rollingLogs : RollingLogs) (thrown : Option String) (req : Request) (now : Nat) : Handled :=
  let timeStamp := env.currentTimeStamp now
  match thrown with
  | some _ =>
    -- catch (error): rollingLogs.then(write).then(onError).catch(onError)
    match writeLog rollingLogs [] with
    | (written, .pending) => ⟨[], [], written, false⟩
    | (written, _) => ⟨[], [], written, true⟩
  | none =>
    let w := receiveUpdate.work env key onUpdate req timeStamp
    let logResult := LogLine.info "Before starting work" :: w.logged
    -- work().then(() => rollingLogs.then(write)).catch(onError)
    match w.promise with
    | .pending => ⟨w.responded, w.updates, [], false⟩
    | .rejected _ => ⟨w.responded, w.updates, [], true⟩
    | .resolved _ =>
      match writeLog rollingLogs logResult with
      | (written, .rejected _) => ⟨w.responded, w.updates, written, true⟩
      | (written, _) => ⟨w.responded, w.updates, written, false⟩

/-- The request listener of `listenToGithub`: only `POST` is handled. -/
def listenToGithub {κ : Type} (env : Imports κ) (key : κ) (onUpdate : Promise Unit)
    (rollingLogs : RollingLogs) (thrown : Option String) (req : Request) (now : Nat) : Handled :=
  if req.method = "POST" then receiveUpdate env key onUpdate rollingLogs thrown req now
  else ⟨[], [], [], false⟩

/-! ## Periodic trigger (webhook-server.js, lines 12-23) -/

/-- `setInterval(callback, delay, arg)` called at time `start`: the `k`-th tick
(`k = 1, 2, ...`) happens at `start + k * delay` and calls `callback(arg)`; the
argument is the value `arg` had when `setInterval` was called. -/
def setInterval {α : Type} (delay : Nat) (arg : α) (start k : Nat) : Nat × α :=
  (start + k * delay, arg)

/-- The timer line of `webhookServer`, run at clock reading `setup`: the time of
tick `k` and the `timeStamp` that tick passes to `fullOne`. -/
def webhookServer {κ : Type} (env : Imports κ) (setup k : Nat) : Nat × String :=
  setInterval 300000 (env.currentTimeStamp setup) setup k

/-! ## `Fetcher.fetch` and `doRequest` (io.js, lines 75-117) -/

/-- The `retries` option. -/
inductive Retries where
  | absent
  | bool (b : Bool)
  | count (n : Nat)
deriving DecidableEq, Repr

/-- `const maxRetries = ...`. -/
def maxRetries : Retries → Nat
  | .absent => 0
  | .bool false => 0
  | .bool true => 10
  | .count n => n

/-- `/EAI_AGAIN|ETIMEDOUT|ECONNRESET/.test(message)`. -/
def transient (message : String) : Bool :=
  includes "EAI_AGAIN".data message.data || includes "ETIMEDOUT".data message.data
    || includes "ECONNRESET".data message.data

/-- An event that the network raises for one request made by `doRequest`. -/
inductive NetEvent where
  /-- `data` on the response, with the chunk `d` -/
  | data (d : String)
  /-- `error` on the response, with `err.message` -/
  | error (message : String)
  /-- `end` on the response -/
  | ended
  /-- `error` on the request object itself (lookup failure, reset or timeout of
  the connection), with `err.message` -/
  | requestError (message : String)
deriving DecidableEq, Repr

/-- How a call of `doRequest`, and of `fetch`, ends up. -/
inductive Outcome where
  | resolved (text : String)
  /-- rejected with an error whose `message` is given -/
  | rejected (message : String)
  /-- an `error` event found no listener: it is thrown out of the event loop as
  an uncaught exception and the promise is never settled -/
  | uncaught (message : String)
  | pending
deriving DecidableEq, Repr

/-- The listeners of `doRequest` run over the events of one request, `text`
being what the `data` listener has gathered: the response has `data`, `error`
(`reject`) and `end` (`resolve(text)`) listeners, the request has none. -/
def doRequest.listen (text : String) : List NetEvent → Outcome
  | [] => .pending
  | .data d :: rest => doRequest.listen (text ++ d) rest
  | .error message :: _ => .rejected message
  | .ended :: _ => .resolved text
  | .requestError message :: _ => .uncaught message

/-- `doRequest(options, makeRequest, agent)` for a request that meets `events`. -/
def doRequest (events : List NetEvent) : Outcome :=
  doRequest.listen "" events

/-- What one call of `fetch` did. -/
structure Fetched where
  /-- how the promise of `fetch` ends up -/
  result : Outcome
  /-- number of `doRequest` calls -/
  requests : Nat
  /-- number of `sleep(1)` calls -/
  sleeps : Nat
deriving DecidableEq, Repr

/-- The `for` loop of `fetch` and the final `return doRequest(...)`, entered with
the loop variable `retries` after `made` requests; `network i` is what the
`i`-th request (from 0) meets.  The loop test `retries > 1` is the third case;
only a rejection reaches the `catch`. -/
def Fetcher.fetch.loop (network : Nat → List NetEvent) : Nat → Nat → Fetched
  | 0, made => ⟨doRequest (network made), made + 1, made⟩
  | 1, made => ⟨doRequest (network made), made + 1, made⟩
  | retries + 2, made =>
    match doRequest (network made) with
    | .resolved text => ⟨.resolved text, made + 1, made⟩
    | .rejected message =>
      if !transient message then ⟨.rejected message, made + 1, made⟩
      else Fetcher.fetch.loop network (retries + 1) (made + 1)
    | .uncaught message => ⟨.uncaught message, made + 1, made⟩
    | .pending => ⟨.pending, made + 1, made⟩

/-- `Fetcher.fetch(options)`. -/
def Fetcher.fetch (network : Nat → List NetEvent) (retries : Retries) : Fetched :=
  Fetcher.fetch.loop network (maxRetries retries) 0

/-! ## Concrete inputs -/

/-- A two-byte stand-in for the HMAC, a parser that knows two payloads, a clock
shown in decimal, and the source branch `master`. -/
def sampleImports : Imports Unit :=
  { createHmac := fun _ _ => [0xab, 0x01]
    parseJson := fun s =>
      if s = "main" then .ok (.object [("ref", .string "refs/heads/master")])
      else if s = "other" then .ok (.object [("ref", .string "refs/heads/other")])
      else .error "SyntaxError"
    currentTimeStamp := fun n => toString n
    sourceBranch := "master" }

/-- A `POST` request with one signature header whose stream ends after `body`. -/
def sampleRequest (signature body : String) : Request :=
  { method := "POST", headers := [("x-hub-signature", .str signature)], stream := .ended body }

/-- A rolling log that is created and written without error. -/
def healthyLogs : RollingLogs :=
  { create := .resolved (), write := .resolved () }

/-- The connection of request `i` is reset before any response for `i < 2`; the
third request is answered with "body". -/
def resetBeforeResponse (i : Nat) : List NetEvent :=
  if i < 2 then [.requestError "read ECONNRESET"] else [.data "bo", .data "dy", .ended]

/-- The response of request `i` breaks off with a reset for `i < 2`; the third
request is answered with "body". -/
def resetDuringResponse (i : Nat) : List NetEvent :=
  if i < 2 then [.data "bo", .error "read ECONNRESET"] else [.data "bo", .data "dy", .ended]

/-! ### Lemmas on the coalescer -/

/-- While `working` holds, further triggers only set the flag and log. -/
theorem run_triggers_while_working (n : Nat) (s : Coalescer) (hw : s.working = true) :
    (s.run (List.replicate (n + 1) (Event.trigger 1))).working = true ∧
    (s.run (List.replicate (n + 1) (Event.trigger 1))).anyUpdatesWhileWorking = true ∧
    (s.run (List.replicate (n + 1) (Event.trigger 1))).awaiting = s.awaiting ∧
    (s.run (List.replicate (n + 1) (Event.trigger 1))).calls = s.calls := by
  induction n generalizing s with
  | zero =>
    simp [Coalescer.run, Coalescer.step, updateOneAtATime.call, hw]
  | succ n ih =>
    have hstep : s.run (List.replicate (n + 1 + 1) (Event.trigger 1))
        = (updateOneAtATime.call s 1).run (List.replicate (n + 1) (Event.trigger 1)) := by
      simp [Coalescer.run, List.replicate_succ, Coalescer.step]
    have hw2 : (updateOneAtATime.call s 1).working = true := by
      simp [updateOneAtATime.call, hw]
    have ha : (updateOneAtATime.call s 1).awaiting = s.awaiting := by
      simp [updateOneAtATime.call, hw]
    have hc : (updateOneAtATime.call s 1).calls = s.calls := by
      simp [updateOneAtATime.call, hw]
    rw [hstep]
    obtain ⟨h1, h2, h3, h4⟩ := ih (updateOneAtATime.call s 1) hw2
    exact ⟨h1, h2, h3.trans ha, h4.trans hc⟩

/-- With the flag set and one `work()` suspended, every resolution makes one more
`doOnce` call and leaves the flag set and the same `work()` suspended. -/
theorem run_resolves_flag_set (k : Nat) (s : Coalescer) (c : Nat)
    (hf : s.anyUpdatesWhileWorking = true) (ha : s.awaiting = [c]) :
    (s.run (List.replicate k (Event.resolve 0))).anyUpdatesWhileWorking = true ∧
    (s.run (List.replicate k (Event.resolve 0))).awaiting = [c] ∧
    (s.run (List.replicate k (Event.resolve 0))).calls = s.calls ++ List.replicate k c := by
  induction k generalizing s with
  | zero => simp [Coalescer.run, hf, ha]
  | succ k ih =>
    have hstep : s.run (List.replicate (k + 1) (Event.resolve 0))
        = (updateOneAtATime.resume s 0).run (List.replicate k (Event.resolve 0)) := by
      simp [Coalescer.run, List.replicate_succ, Coalescer.step]
    have hr : updateOneAtATime.resume s 0
        = { s with working := false, calls := s.calls ++ [c] } := by
      simp [updateOneAtATime.resume, ha, hf]
    rw [hstep, hr]
    obtain ⟨h1, h2, h3⟩ := ih { s with working := false, calls := s.calls ++ [c] } hf ha
    refine ⟨h1, h2, ?_⟩
    rw [h3]
    simp [List.replicate_succ]

/-! ### Lemmas on the signature check -/

theorem hexDigit_ascii (n : Nat) : (hexDigit n).toNat < 128 := by
  unfold hexDigit
  split <;> decide

theorem utf8Char_ascii (c : Char) (h : c.toNat < 128) : utf8Char c = [c.toNat] := by
  simp [utf8Char, h]

theorem utf8Char_length_pos (c : Char) : 0 < (utf8Char c).length := by
  unfold utf8Char
  simp only []
  split_ifs <;> simp

theorem written_length_le (room : Nat) (cs : List Char) :
    (Buffer.written room cs).length ≤ room := by
  induction cs generalizing room with
  | nil => simp [Buffer.written]
  | cons c cs ih =>
    unfold Buffer.written
    split_ifs with h
    · have := ih (room - (utf8Char c).length)
      simp only [List.length_append]
      omega
    · simp

theorem write_length (buf : List Nat) (s : String) :
    (Buffer.write buf s).length = buf.length := by
  have := written_length_le buf.length s.data
  simp only [Buffer.write, List.length_append, List.length_drop]
  omega

theorem written_ascii (e suffix : List Char) (h : ∀ c ∈ e, c.toNat < 128) :
    Buffer.written e.length (e ++ suffix) = e.map Char.toNat := by
  induction e with
  | nil =>
    cases suffix with
    | nil => simp [Buffer.written]
    | cons c cs =>
      have := utf8Char_length_pos c
      simp only [List.length_nil, List.nil_append, Buffer.written, List.map_nil]
      rw [if_neg (by omega)]
  | cons c cs ih =>
    have hc : c.toNat < 128 := h c (List.mem_cons_self _ _)
    have hcs : ∀ d ∈ cs, d.toNat < 128 := fun d hd => h d (List.mem_cons_of_mem _ hd)
    simp [Buffer.written, utf8Char_ascii c hc, ih hcs]

theorem ofString_ascii (e : List Char) (h : ∀ c ∈ e, c.toNat < 128) :
    e.flatMap utf8Char = e.map Char.toNat := by
  induction e with
  | nil => simp
  | cons c cs ih =>
    have hc : c.toNat < 128 := h c (List.mem_cons_self _ _)
    have hcs : ∀ d ∈ cs, d.toNat < 128 := fun d hd => h d (List.mem_cons_of_mem _ hd)
    simp [List.flatMap_cons, utf8Char_ascii c hc, ih hcs]

theorem jsLength_ascii (s : String) (h : ∀ c ∈ s.data, c.toNat < 128) :
    jsLength s = s.data.length := by
  unfold jsLength
  generalize s.data = e at h
  induction e with
  | nil => simp
  | cons c cs ih =>
    have hc : c.toNat < 128 := h c (List.mem_cons_self _ _)
    have hcs : ∀ d ∈ cs, d.toNat < 128 := fun d hd => h d (List.mem_cons_of_mem _ hd)
    have hlt : c.toNat < 65536 := by omega
    simp [hlt, ih hcs]
    omega

theorem expectedSignature_ascii {κ : Type} (env : Imports κ) (key : κ) (data : String) :
    ∀ c ∈ (expectedSignature env key data).data, c.toNat < 128 := by
  intro c hc
  simp only [expectedSignature, String.data_append, List.mem_append, hex, List.mem_flatMap] at hc
  rcases hc with hc | ⟨b, _, hb⟩
  · revert c
    decide
  · simp only [List.mem_cons, List.mem_singleton, List.not_mem_nil, or_false] at hb
    rcases hb with rfl | rfl <;> exact hexDigit_ascii _

/-- An ASCII `expected` followed by anything compares equal to `expected`. -/
theorem stringEqualsConstantTime_extension (expected suffix : String)
    (h : ∀ c ∈ expected.data, c.toNat < 128) :
    stringEqualsConstantTime (expected ++ suffix) expected = .ok true := by
  have hw : Buffer.write (Buffer.alloc (jsLength expected)) (expected ++ suffix)
      = expected.data.map Char.toNat := by
    have hw0 := written_ascii expected.data suffix.data h
    unfold Buffer.write Buffer.alloc
    rw [jsLength_ascii expected h, List.length_replicate, String.data_append, hw0]
    simp
  simp [stringEqualsConstantTime, hw, Buffer.ofString, ofString_ascii _ h, timingSafeEqual]

/-- The comparison never throws when `expected` is ASCII. -/
theorem stringEqualsConstantTime_total (actual expected : String)
    (h : ∀ c ∈ expected.data, c.toNat < 128) :
    ∃ b, stringEqualsConstantTime actual expected = .ok b := by
  have hl : (Buffer.write (Buffer.alloc (jsLength expected)) actual).length
      = (Buffer.ofString expected).length := by
    rw [write_length]
    simp [Buffer.alloc, Buffer.ofString, jsLength_ascii expected h, ofString_ascii _ h]
  simp [stringEqualsConstantTime, timingSafeEqual, hl]

theorem checkSignature_total {κ : Type} (env : Imports κ) (key : κ) (data : String)
    (headers : Headers) : ∃ b lines, checkSignature env key data headers = .ok (b, lines) := by
  unfold checkSignature
  simp only []
  split
  · rename_i s _
    obtain ⟨b, hb⟩ := stringEqualsConstantTime_total s (expectedSignature env key data)
      (expectedSignature_ascii env key data)
    rw [hb]
    cases b <;> simp
  · simp

theorem checkSignature_extension {κ : Type} (env : Imports κ) (key : κ) (data suffix : String)
    (headers : Headers)
    (h : headers.lookup "x-hub-signature" = some (.str (expectedSignature env key data ++ suffix))) :
    checkSignature env key data headers = .ok (true, []) := by
  unfold checkSignature
  simp only [h]
  rw [stringEqualsConstantTime_extension _ _ (expectedSignature_ascii env key data)]


/-! ## The coalescer: claims C1 and C2 -/

theorem run_first_trigger (n k : Nat) :
    updateOneAtATime.run (burst n k)
      = ((updateOneAtATime.call updateOneAtATime 0).run (List.replicate n (Event.trigger 1))).run
          (List.replicate k (Event.resolve 0)) := by
  simp [burst, Coalescer.run, Coalescer.step, List.foldl_append]

/-- Claim C1, as the code behaves.  One trigger starts a run while idle and
`n + 1` further triggers arrive during that run.  Then every release of the
running job is followed by one more `doOnce` call: after `k` releases there have
been `1 + k` calls, the same `work()` is still suspended on `doOnce`, and
`anyUpdatesWhileWorking` is still set, so the run-loop never ends.  With no
trigger during the run, one release ends the loop after the single call. -/
theorem coalescer_reruns_after_every_release (n k : Nat) :
    (updateOneAtATime.run (burst (n + 1) k)).calls = List.replicate (1 + k) 0 ∧
    (updateOneAtATime.run (burst (n + 1) k)).awaiting = [0] ∧
    (updateOneAtATime.run (burst (n + 1) k)).anyUpdatesWhileWorking = true ∧
    (updateOneAtATime.run (burst 0 1)).calls = [0] ∧
    (updateOneAtATime.run (burst 0 1)).awaiting = [] := by
  have h0 : (updateOneAtATime.call updateOneAtATime 0).working = true := by decide
  obtain ⟨_, h2, h3, h4⟩ :=
    run_triggers_while_working n (updateOneAtATime.call updateOneAtATime 0) h0
  have h3' : ((updateOneAtATime.call updateOneAtATime 0).run
      (List.replicate (n + 1) (Event.trigger 1))).awaiting = [0] := by rw [h3]; decide
  obtain ⟨g1, g2, g3⟩ := run_resolves_flag_set k _ 0 h2 h3'
  rw [run_first_trigger]
  refine ⟨?_, g2, g1, by decide, by decide⟩
  rw [g3, h4]
  have : (updateOneAtATime.call updateOneAtATime 0).calls = [0] := by decide
  rw [this, Nat.add_comm 1 k, List.replicate_succ]
  rfl

/-- Claim C2, as the code behaves.  After a trigger while idle, a trigger during
the run and the resolution of that run, the loop has started a second `doOnce`
with `working` already reset to `false`; the next trigger therefore starts a
second `work()`, and two `doOnce` bodies are in progress at once. -/
theorem coalescer_two_bodies_in_progress :
    (updateOneAtATime.run [.trigger 0, .trigger 1, .resolve 0, .trigger 2]).inProgress = 2 ∧
    (updateOneAtATime.run [.trigger 0, .trigger 1, .resolve 0, .trigger 2]).awaiting = [0, 2] ∧
    (updateOneAtATime.run [.trigger 0, .trigger 1, .resolve 0]).inProgress = 1 ∧
    (updateOneAtATime.run [.trigger 0, .trigger 1, .resolve 0]).working = false := by
  decide

/-! ## The signature check: claims C3 and C4 -/

/-- Claim C3, as the code behaves.  For every key and body, a signature header
that is the expected signature followed by one more character is a string
different from the expected signature, and `checkSignature` returns `true` for
it (without logging anything). -/
theorem checkSignature_accepts_extended_signature {κ : Type} (env : Imports κ) (key : κ)
    (data : String) :
    expectedSignature env key data ++ "x" ≠ expectedSignature env key data ∧
    checkSignature env key data
      [("x-hub-signature", .str (expectedSignature env key data ++ "x"))] = .ok (true, []) := by
  refine ⟨?_, checkSignature_extension env key data "x" _ (by simp [List.lookup])⟩
  intro h
  have hl := congrArg String.length h
  rw [String.length_append] at hl
  have hx : "x".length = 1 := by decide
  omega

/-- Claim C4.  For every key and body, when `headers["x-hub-signature"]` is
exactly `expectedSignature(key, data)`, which is `sha1=` followed by the hex
digest of the HMAC of the body under the key, `checkSignature` returns `true`. -/
theorem checkSignature_accepts_expected {κ : Type} (env : Imports κ) (key : κ) (data : String)
    (headers : Headers)
    (h : headers.lookup "x-hub-signature" = some (.str (expectedSignature env key data))) :
    expectedSignature env key data = "sha1=" ++ hex (env.createHmac key data) ∧
    checkSignature env key data headers = .ok (true, []) := by
  refine ⟨rfl, checkSignature_extension env key data "" headers ?_⟩
  simpa using h

/-- Claim C4 at a concrete key, body and header map. -/
theorem checkSignature_accepts_expected_witness :
    List.lookup "x-hub-signature" [("x-hub-signature", HeaderValue.str "sha1=ab01")]
        = some (.str (expectedSignature sampleImports () "main")) ∧
    expectedSignature sampleImports () "main" = "sha1=" ++ hex (sampleImports.createHmac () "main") ∧
    checkSignature sampleImports () "main" [("x-hub-signature", .str "sha1=ab01")]
      = .ok (true, []) :=
  ⟨by decide, checkSignature_accepts_expected sampleImports () "main"
    [("x-hub-signature", .str "sha1=ab01")] (by decide)⟩

/-! ## Request handling: claims C5, C6 and C7 -/

theorem work_body_rejected {κ : Type} (env : Imports κ) (key : κ) (onUpdate : Promise Unit)
    (req : Request) (timeStamp : String) (r : String)
    (hs : stringOfStream req.stream "Request to webhook" = .rejected r) :
    receiveUpdate.work env key onUpdate req timeStamp = ⟨[], [], [], .rejected r⟩ := by
  simp [receiveUpdate.work, hs]

theorem work_body_pending {κ : Type} (env : Imports κ) (key : κ) (onUpdate : Promise Unit)
    (req : Request) (timeStamp : String) (hs : stringOfStream req.stream "Request to webhook" = .pending) :
    receiveUpdate.work env key onUpdate req timeStamp = ⟨[], [], [], .pending⟩ := by
  simp [receiveUpdate.work, hs]

theorem work_bad_signature {κ : Type} (env : Imports κ) (key : κ) (onUpdate : Promise Unit)
    (req : Request) (timeStamp : String) (d : String) (lines : List LogLine)
    (hs : stringOfStream req.stream "Request to webhook" = .resolved d)
    (hc : checkSignature env key d req.headers = .ok (false, lines)) :
    receiveUpdate.work env key onUpdate req timeStamp = ⟨[], [], lines, .resolved ()⟩ := by
  simp [receiveUpdate.work, hs, hc]

theorem work_parse_failure {κ : Type} (env : Imports κ) (key : κ) (onUpdate : Promise Unit)
    (req : Request) (timeStamp : String) (d : String) (lines : List LogLine) (e : String)
    (hs : stringOfStream req.stream "Request to webhook" = .resolved d)
    (hc : checkSignature env key d req.headers = .ok (true, lines))
    (hp : (env.parseJson d).bind Json.ref = .error e) :
    receiveUpdate.work env key onUpdate req timeStamp
      = ⟨[], [], lines ++ [.infoMessage d], .rejected e⟩ := by
  simp [receiveUpdate.work, hs, hc, hp]

theorem work_ref_matches {κ : Type} (env : Imports κ) (key : κ) (onUpdate : Promise Unit)
    (req : Request) (timeStamp : String) (d : String) (lines : List LogLine)
    (hs : stringOfStream req.stream "Request to webhook" = .resolved d)
    (hc : checkSignature env key d req.headers = .ok (true, lines))
    (hp : (env.parseJson d).bind Json.ref = .ok (.string ("refs/heads/" ++ env.sourceBranch))) :
    receiveUpdate.work env key onUpdate req timeStamp
      = ⟨["Thanks for the update! Running full."], [timeStamp], lines ++ [.infoMessage d],
          onUpdate⟩ := by
  simp [receiveUpdate.work, hs, hc, hp]

theorem work_ref_differs {κ : Type} (env : Imports κ) (key : κ) (onUpdate : Promise Unit)
    (req : Request) (timeStamp : String) (d : String) (lines : List LogLine) (ref : JsValue)
    (hs : stringOfStream req.stream "Request to webhook" = .resolved d)
    (hc : checkSignature env key d req.headers = .ok (true, lines))
    (hp : (env.parseJson d).bind Json.ref = .ok ref)
    (hne : ref ≠ .string ("refs/heads/" ++ env.sourceBranch)) :
    receiveUpdate.work env key onUpdate req timeStamp
      = ⟨["Ignoring push to " ++ ref.render ++ ", expected " ++ ("refs/heads/" ++ env.sourceBranch)
            ++ "."], [],
          lines ++ [.infoMessage d] ++ [.info ("Ignoring push to " ++ ref.render ++ ", expected "
            ++ ("refs/heads/" ++ env.sourceBranch) ++ ".")], .resolved ()⟩ := by
  simp [receiveUpdate.work, hs, hc, hp, hne]

theorem receiveUpdate_responded {κ : Type} (env : Imports κ) (key : κ) (onUpdate : Promise Unit)
    (rollingLogs : RollingLogs) (req : Request) (now : Nat) :
    (receiveUpdate env key onUpdate rollingLogs none req now).responded
      = (receiveUpdate.work env key onUpdate req (env.currentTimeStamp now)).responded ∧
    (receiveUpdate env key onUpdate rollingLogs none req now).updates
      = (receiveUpdate.work env key onUpdate req (env.currentTimeStamp now)).updates := by
  unfold receiveUpdate
  simp only []
  split
  · simp
  · simp
  · split <;> simp

theorem receiveUpdate_closed_iff {κ : Type} (env : Imports κ) (key : κ) (onUpdate : Promise Unit)
    (rollingLogs : RollingLogs) (req : Request) (now : Nat) :
    (receiveUpdate env key onUpdate rollingLogs none req now).closed = true ↔
      (∃ r, (receiveUpdate.work env key onUpdate req (env.currentTimeStamp now)).promise
          = .rejected r) ∨
      ((receiveUpdate.work env key onUpdate req (env.currentTimeStamp now)).promise
          = .resolved () ∧
        ∃ r, (writeLog rollingLogs (LogLine.info "Before starting work" ::
          (receiveUpdate.work env key onUpdate req (env.currentTimeStamp now)).logged)).2
            = .rejected r) := by
  unfold receiveUpdate
  simp only []
  cases hp : (receiveUpdate.work env key onUpdate req (env.currentTimeStamp now)).promise with
  | pending => simp
  | rejected r => simp
  | resolved u =>
    cases hw : writeLog rollingLogs (LogLine.info "Before starting work" ::
        (receiveUpdate.work env key onUpdate req (env.currentTimeStamp now)).logged) with
    | mk written p =>
      cases p <;> simp

theorem work_rejected_iff {κ : Type} (env : Imports κ) (key : κ) (onUpdate : Promise Unit)
    (req : Request) (timeStamp : String) :
    (∃ r, (receiveUpdate.work env key onUpdate req timeStamp).promise = .rejected r) ↔
      (∃ r, stringOfStream req.stream "Request to webhook" = .rejected r) ∨
      (∃ d lines, stringOfStream req.stream "Request to webhook" = .resolved d ∧
        checkSignature env key d req.headers = .ok (true, lines) ∧
        ((∃ e, (env.parseJson d).bind Json.ref = .error e) ∨
         ((env.parseJson d).bind Json.ref = .ok (.string ("refs/heads/" ++ env.sourceBranch)) ∧
           ∃ r, onUpdate = .rejected r))) := by
  cases hs : stringOfStream req.stream "Request to webhook" with
  | pending => simp [work_body_pending env key onUpdate req timeStamp hs]
  | rejected r => simp [work_body_rejected env key onUpdate req timeStamp r hs]
  | resolved d =>
    obtain ⟨b, lines, hc⟩ := checkSignature_total env key d req.headers
    cases b with
    | false => simp [work_bad_signature env key onUpdate req timeStamp d lines hs hc, hc]
    | true =>
      cases hp : (env.parseJson d).bind Json.ref with
      | error e => simp [work_parse_failure env key onUpdate req timeStamp d lines e hs hc hp, hc, hp]
      | ok ref =>
        by_cases href : ref = .string ("refs/heads/" ++ env.sourceBranch)
        · subst href
          simp [work_ref_matches env key onUpdate req timeStamp d lines hs hc hp, hc, hp]
        · simp [work_ref_differs env key onUpdate req timeStamp d lines ref hs hc hp href, hc,
            hp, href]

/-- Claim C5.  For every `POST` request whose body is read as text `d`: when
`checkSignature` returns `false`, nothing is written to the response and
`onUpdate` is not called; when it returns `true` and the parsed `ref` equals
`refs/heads/<sourceBranch>`, the response is exactly
"Thanks for the update! Running full." and `onUpdate` is called exactly once
(with the request's time stamp); when it returns `true` and the parsed `ref` is
anything else, the response is exactly "Ignoring push to <ref>, expected
refs/heads/<sourceBranch>." and `onUpdate` is not called. -/
theorem listenToGithub_dispatch {κ : Type} (env : Imports κ) (key : κ) (onUpdate : Promise Unit)
    (rollingLogs : RollingLogs) (req : Request) (now : Nat) (d : String)
    (hm : req.method = "POST")
    (hs : stringOfStream req.stream "Request to webhook" = .resolved d) :
    (∀ lines, checkSignature env key d req.headers = .ok (false, lines) →
      (listenToGithub env key onUpdate rollingLogs none req now).responded = [] ∧
      (listenToGithub env key onUpdate rollingLogs none req now).updates = []) ∧
    (∀ lines, checkSignature env key d req.headers = .ok (true, lines) →
      (env.parseJson d).bind Json.ref = .ok (.string ("refs/heads/" ++ env.sourceBranch)) →
      (listenToGithub env key onUpdate rollingLogs none req now).responded
        = ["Thanks for the update! Running full."] ∧
      (listenToGithub env key onUpdate rollingLogs none req now).updates
        = [env.currentTimeStamp now]) ∧
    (∀ lines ref, checkSignature env key d req.headers = .ok (true, lines) →
      (env.parseJson d).bind Json.ref = .ok ref →
      ref ≠ .string ("refs/heads/" ++ env.sourceBranch) →
      (listenToGithub env key onUpdate rollingLogs none req now).responded
        = ["Ignoring push to " ++ ref.render ++ ", expected "
            ++ ("refs/heads/" ++ env.sourceBranch) ++ "."] ∧
      (listenToGithub env key onUpdate rollingLogs none req now).updates = []) := by
  obtain ⟨hr, hu⟩ := receiveUpdate_responded env key onUpdate rollingLogs req now
  simp only [listenToGithub, hm, if_true]
  rw [hr, hu]
  refine ⟨?_, ?_, ?_⟩
  · intro lines hc
    rw [work_bad_signature env key onUpdate req _ d lines hs hc]
    exact ⟨rfl, rfl⟩
  · intro lines hc hp
    rw [work_ref_matches env key onUpdate req _ d lines hs hc hp]
    exact ⟨rfl, rfl⟩
  · intro lines ref hc hp hne
    rw [work_ref_differs env key onUpdate req _ d lines ref hs hc hp hne]
    exact ⟨rfl, rfl⟩

/-- Claim C5 at three concrete requests: a bad signature, a push to the source
branch, and a push to another branch. -/
theorem listenToGithub_dispatch_witness :
    (listenToGithub sampleImports () (.resolved ()) healthyLogs none
        (sampleRequest "sha1=0000" "main") 7).responded = [] ∧
    (listenToGithub sampleImports () (.resolved ()) healthyLogs none
        (sampleRequest "sha1=0000" "main") 7).updates = [] ∧
    (listenToGithub sampleImports () (.resolved ()) healthyLogs none
        (sampleRequest "sha1=ab01" "main") 7).responded
      = ["Thanks for the update! Running full."] ∧
    (listenToGithub sampleImports () (.resolved ()) healthyLogs none
        (sampleRequest "sha1=ab01" "main") 7).updates = [sampleImports.currentTimeStamp 7] ∧
    (listenToGithub sampleImports () (.resolved ()) healthyLogs none
        (sampleRequest "sha1=ab01" "other") 7).responded
      = ["Ignoring push to refs/heads/other, expected refs/heads/master."] ∧
    (listenToGithub sampleImports () (.resolved ()) healthyLogs none
        (sampleRequest "sha1=ab01" "other") 7).updates = [] :=
  have h1 := (listenToGithub_dispatch sampleImports () (.resolved ()) healthyLogs
    (sampleRequest "sha1=0000" "main") 7 "main" (by decide) (by decide)).1 _ rfl
  have h2 := (listenToGithub_dispatch sampleImports () (.resolved ()) healthyLogs
    (sampleRequest "sha1=ab01" "main") 7 "main" (by decide) (by decide)).2.1 [] rfl rfl
  have h3 := (listenToGithub_dispatch sampleImports () (.resolved ()) healthyLogs
    (sampleRequest "sha1=ab01" "other") 7 "other" (by decide) (by decide)).2.2 []
    (.string "refs/heads/other") rfl rfl (by decide)
  ⟨h1.1, h1.2, h2.1, h2.2, h3.1, h3.2⟩

/-- Claim C6 fails: a `POST` whose decoded body contains U+FFFD closes the
server, although the update job is never called. -/
theorem malformed_body_closes_server :
    includes ['�'] "�".data = true ∧
    (listenToGithub sampleImports () (.resolved ()) healthyLogs none
      (sampleRequest "sha1=ab01" "�") 7).updates = [] ∧
    (listenToGithub sampleImports () (.resolved ()) healthyLogs none
      (sampleRequest "sha1=ab01" "�") 7).closed = true := by
  decide

/-- Claim C6, amended.  For every `POST` request: a body whose decoded text
contains U+FFFD closes the server; a body that passes the signature check and
that `parseJson` rejects closes the server; a body that fails the signature
check leaves the server open as long as the rolling log does not reject.  The
server is closed exactly when the body read rejects, or a signed payload fails
to parse or to yield `ref`, or the update job rejects, or the log write after a
resolved `work()` rejects. -/
theorem listenToGithub_closes_on_any_rejection {κ : Type} (env : Imports κ) (key : κ)
    (onUpdate : Promise Unit) (rollingLogs : RollingLogs) (req : Request) (now : Nat)
    (hm : req.method = "POST") :
    (∀ body, req.stream = .ended body → includes ['�'] body.data = true →
      (listenToGithub env key onUpdate rollingLogs none req now).closed = true) ∧
    (∀ d lines e, stringOfStream req.stream "Request to webhook" = .resolved d →
      checkSignature env key d req.headers = .ok (true, lines) → env.parseJson d = .error e →
      (listenToGithub env key onUpdate rollingLogs none req now).closed = true) ∧
    (∀ d lines, stringOfStream req.stream "Request to webhook" = .resolved d →
      checkSignature env key d req.headers = .ok (false, lines) →
      (∀ r, rollingLogs.create ≠ .rejected r) → (∀ r, rollingLogs.write ≠ .rejected r) →
      (listenToGithub env key onUpdate rollingLogs none req now).closed = false) ∧
    ((listenToGithub env key onUpdate rollingLogs none req now).closed = true ↔
      (∃ r, stringOfStream req.stream "Request to webhook" = .rejected r) ∨
      (∃ d lines, stringOfStream req.stream "Request to webhook" = .resolved d ∧
        checkSignature env key d req.headers = .ok (true, lines) ∧
        ((∃ e, (env.parseJson d).bind Json.ref = .error e) ∨
         ((env.parseJson d).bind Json.ref = .ok (.string ("refs/heads/" ++ env.sourceBranch)) ∧
           ∃ r, onUpdate = .rejected r))) ∨
      ((receiveUpdate.work env key onUpdate req (env.currentTimeStamp now)).promise
          = .resolved () ∧
        ∃ r, (writeLog rollingLogs (LogLine.info "Before starting work" ::
          (receiveUpdate.work env key onUpdate req (env.currentTimeStamp now)).logged)).2
            = .rejected r)) := by
  have hiff := receiveUpdate_closed_iff env key onUpdate rollingLogs req now
  have hrej := work_rejected_iff env key onUpdate req (env.currentTimeStamp now)
  simp only [listenToGithub, hm, if_true]
  refine ⟨?_, ?_, ?_, ?_⟩
  · intro body hb hbad
    rw [hiff, hrej]
    refine Or.inl (Or.inl ⟨"Bad character decode in Request to webhook", ?_⟩)
    simp [stringOfStream, hb, hbad]
  · intro d lines e hs hc hp
    rw [hiff, hrej]
    refine Or.inl (Or.inr ⟨d, lines, hs, hc, Or.inl ⟨e, ?_⟩⟩)
    simp [hp, Except.bind]
  · intro d lines hs hc hcreate hwrite
    rw [← Bool.not_eq_true, hiff]
    rintro (⟨r, hr⟩ | ⟨_, r, hr⟩)
    · rw [work_bad_signature env key onUpdate req _ d lines hs hc] at hr
      cases hr
    · unfold writeLog at hr
      split at hr
      · exact hwrite r hr
      · rename_i r2 h2
        exact hcreate r2 h2
      · cases hr
  · rw [hiff, hrej, or_assoc]

/-- Claim C6, amended, at three concrete malformed requests. -/
theorem listenToGithub_closes_on_any_rejection_witness :
    (listenToGithub sampleImports () (.resolved ()) healthyLogs none
      (sampleRequest "sha1=0000" "�") 7).closed = true ∧
    (listenToGithub sampleImports () (.resolved ()) healthyLogs none
      (sampleRequest "sha1=ab01" "not json") 7).closed = true ∧
    (listenToGithub sampleImports () (.resolved ()) healthyLogs none
      (sampleRequest "sha1=0000" "not json") 7).closed = false :=
  ⟨(listenToGithub_closes_on_any_rejection sampleImports () (.resolved ()) healthyLogs
      (sampleRequest "sha1=0000" "�") 7 (by decide)).1 "�" rfl (by decide),
   (listenToGithub_closes_on_any_rejection sampleImports () (.resolved ()) healthyLogs
      (sampleRequest "sha1=ab01" "not json") 7 (by decide)).2.1 "not json" [] "SyntaxError"
      (by decide) rfl rfl,
   (listenToGithub_closes_on_any_rejection sampleImports () (.resolved ()) healthyLogs
      (sampleRequest "sha1=0000" "not json") 7 (by decide)).2.2.1 "not json" _
      (by decide) rfl (by intro r h; cases h) (by intro r h; cases h)⟩

/-- Claim C7, as the code behaves.  Whenever the promise of `work()` rejects
(body read failure, parse failure, update job rejection), `receiveUpdate` writes
nothing to the rolling log and closes the server; the `catch` branch for a
synchronous exception does write the log once before closing. -/
theorem receiveUpdate_rejection_skips_log_write {κ : Type} (env : Imports κ) (key : κ)
    (onUpdate : Promise Unit) (rollingLogs : RollingLogs) (req : Request) (now : Nat)
    (reason : String)
    (h : (receiveUpdate.work env key onUpdate req (env.currentTimeStamp now)).promise
      = .rejected reason) :
    (receiveUpdate env key onUpdate rollingLogs none req now).written = [] ∧
    (receiveUpdate env key onUpdate rollingLogs none req now).closed = true ∧
    (rollingLogs.create = .resolved () →
      (receiveUpdate env key onUpdate rollingLogs (some reason) req now).written = [[]]) := by
  refine ⟨?_, ?_, ?_⟩
  · simp [receiveUpdate, h]
  · simp [receiveUpdate, h]
  · intro hc
    unfold receiveUpdate writeLog
    simp only [hc]
    cases rollingLogs.write <;> rfl

/-- Claim C7 at a concrete request whose update job rejects: the job was called,
the log was not written, and the server was closed. -/
theorem receiveUpdate_rejection_skips_log_write_witness :
    (receiveUpdate sampleImports () (.rejected "update failed") healthyLogs none
      (sampleRequest "sha1=ab01" "main") 7).updates = ["7"] ∧
    (receiveUpdate sampleImports () (.rejected "update failed") healthyLogs none
      (sampleRequest "sha1=ab01" "main") 7).written = [] ∧
    (receiveUpdate sampleImports () (.rejected "update failed") healthyLogs none
      (sampleRequest "sha1=ab01" "main") 7).closed = true ∧
    (receiveUpdate sampleImports () (.rejected "update failed") healthyLogs
      (some "update failed") (sampleRequest "sha1=ab01" "main") 7).written = [[]] :=
  have h := receiveUpdate_rejection_skips_log_write sampleImports () (.rejected "update failed")
    healthyLogs (sampleRequest "sha1=ab01" "main") 7 "update failed" (by decide)
  ⟨by decide, h.1, h.2.1, h.2.2 rfl⟩

/-! ## The periodic trigger: claim C9 -/

/-- Claim C9, as the code behaves.  Every tick `k` of the timer passes the time
stamp taken when the timer was set up, not the one current at the tick: with a
clock shown in decimal and set up at time 0, the first tick happens at time
300000 and passes the stamp "0". -/
theorem webhookServer_ticks_reuse_setup_timeStamp {κ : Type} (env : Imports κ) (setup k : Nat) :
    webhookServer env setup k = (setup + k * 300000, env.currentTimeStamp setup) ∧
    (webhookServer sampleImports 0 1).2 = "0" ∧
    sampleImports.currentTimeStamp (webhookServer sampleImports 0 1).1 = "300000" := by
  refine ⟨rfl, by decide, by decide⟩

/-! ## The fetcher: claim C8 -/

theorem transient_eq_true_iff (e : String) :
    transient e = true ↔
      (includes "EAI_AGAIN".data e.data = true ∨ includes "ETIMEDOUT".data e.data = true ∨
        includes "ECONNRESET".data e.data = true) := by
  simp [transient, Bool.or_eq_true, or_assoc]

theorem transient_eq_false_iff (e : String) :
    transient e = false ↔
      (includes "EAI_AGAIN".data e.data = false ∧ includes "ETIMEDOUT".data e.data = false ∧
        includes "ECONNRESET".data e.data = false) := by
  simp [transient, Bool.or_eq_false_iff, and_assoc]

theorem fetch_loop_spec (network : Nat → List NetEvent) (m made : Nat) :
    ∃ i, made ≤ i ∧ i < made + (m + 1) ∧
      (Fetcher.fetch.loop network (m + 1) made).result = doRequest (network i) ∧
      (Fetcher.fetch.loop network (m + 1) made).requests = i + 1 ∧
      (Fetcher.fetch.loop network (m + 1) made).sleeps = i ∧
      (∀ j, made ≤ j → j < i →
        ∃ e, doRequest (network j) = .rejected e ∧ transient e = true) ∧
      (i + 1 = made + (m + 1) ∨ (∃ t, doRequest (network i) = .resolved t) ∨
        (∃ e, doRequest (network i) = .rejected e ∧ transient e = false) ∨
        (∃ e, doRequest (network i) = .uncaught e) ∨ doRequest (network i) = .pending) := by
  induction m generalizing made with
  | zero =>
    refine ⟨made, le_refl _, by omega, rfl, rfl, rfl, ?_, Or.inl rfl⟩
    intro j h1 h2
    omega
  | succ m ih =>
    have hnone : ∀ j, made ≤ j → j < made →
        ∃ e, doRequest (network j) = .rejected e ∧ transient e = true := by
      intro j h1 h2
      omega
    cases hd : doRequest (network made) with
    | resolved t =>
      refine ⟨made, le_refl _, by omega, ?_, ?_, ?_, hnone, Or.inr (Or.inl ⟨t, hd⟩)⟩ <;>
        simp [Fetcher.fetch.loop, hd]
    | uncaught e =>
      refine ⟨made, le_refl _, by omega, ?_, ?_, ?_, hnone,
        Or.inr (Or.inr (Or.inr (Or.inl ⟨e, hd⟩)))⟩ <;>
        simp [Fetcher.fetch.loop, hd]
    | pending =>
      refine ⟨made, le_refl _, by omega, ?_, ?_, ?_, hnone,
        Or.inr (Or.inr (Or.inr (Or.inr hd)))⟩ <;>
        simp [Fetcher.fetch.loop, hd]
    | rejected e =>
      by_cases ht : transient e = true
      · obtain ⟨i, h1, h2, h3, h4, h5, h6, h7⟩ := ih (made + 1)
        have hl : Fetcher.fetch.loop network (m + 1 + 1) made
            = Fetcher.fetch.loop network (m + 1) (made + 1) := by
          simp [Fetcher.fetch.loop, hd, ht]
        rw [hl]
        refine ⟨i, by omega, by omega, h3, h4, h5, ?_, ?_⟩
        · intro j hj1 hj2
          by_cases hj : j = made
          · subst hj
            exact ⟨e, hd, ht⟩
          · exact h6 j (by omega) hj2
        · rcases h7 with h | h
          · exact Or.inl (by omega)
          · exact Or.inr h
      · have hf : transient e = false := by simpa using ht
        refine ⟨made, le_refl _, by omega, ?_, ?_, ?_, hnone,
          Or.inr (Or.inr (Or.inl ⟨e, hd, hf⟩))⟩ <;>
          simp [Fetcher.fetch.loop, hd, hf]

theorem fetch_eq_loop (network : Nat → List NetEvent) (retries : Retries) (n : Nat)
    (hn : (retries = .absent ∧ n = 1) ∨ (retries = .bool false ∧ n = 1) ∨
      (retries = .bool true ∧ n = 10) ∨ (retries = .count n ∧ 1 ≤ n)) :
    Fetcher.fetch network retries = Fetcher.fetch.loop network (n - 1 + 1) 0 := by
  rcases hn with ⟨h, rfl⟩ | ⟨h, rfl⟩ | ⟨h, rfl⟩ | ⟨h, h1⟩
  · subst h; rfl
  · subst h; rfl
  · subst h; rfl
  · subst h
    have : n - 1 + 1 = n := by omega
    rw [this]
    rfl

/-- Claim C8, as the code behaves.  With attempt limit `n` (`retries` absent or
`false`: 1; `true`: 10; a count `r` with `1 ≤ r`: `r`), `fetch` makes requests
`0, 1, ..., i` for some `i < n`, sleeping once between two requests, and ends as
request `i` does.  Every earlier request was rejected with a message containing
EAI_AGAIN, ETIMEDOUT or ECONNRESET, and request `i` is the `n`-th one, or
resolved, or was rejected with a message containing none of the three, or raised
an error on the request object, or never settled.  An error raised on the request
object at the first request, whatever its message and whatever `n`, is an
uncaught exception after one request: it is never retried and `fetch` never
returns.  Only for resets delivered as rejections do `n - 1` of them followed by
a success return the success value after `n` requests, and a first rejection
with none of the three codes is propagated after one request. -/
theorem fetch_retries_rejections_only (network : Nat → List NetEvent)
    (retries : Retries) (n : Nat)
    (hn : (retries = .absent ∧ n = 1) ∨ (retries = .bool false ∧ n = 1) ∨
      (retries = .bool true ∧ n = 10) ∨ (retries = .count n ∧ 1 ≤ n)) :
    (∃ i, i < n ∧
      (Fetcher.fetch network retries).result = doRequest (network i) ∧
      (Fetcher.fetch network retries).requests = i + 1 ∧
      (Fetcher.fetch network retries).sleeps = i ∧
      (∀ j, j < i → ∃ e, doRequest (network j) = .rejected e ∧
        (includes "EAI_AGAIN".data e.data = true ∨ includes "ETIMEDOUT".data e.data = true ∨
          includes "ECONNRESET".data e.data = true)) ∧
      (i + 1 = n ∨ (∃ t, doRequest (network i) = .resolved t) ∨
        (∃ e, doRequest (network i) = .rejected e ∧
          includes "EAI_AGAIN".data e.data = false ∧ includes "ETIMEDOUT".data e.data = false ∧
          includes "ECONNRESET".data e.data = false) ∨
        (∃ e, doRequest (network i) = .uncaught e) ∨ doRequest (network i) = .pending)) ∧
    (∀ message rest, network 0 = .requestError message :: rest →
      (Fetcher.fetch network retries).result = .uncaught message ∧
      (Fetcher.fetch network retries).requests = 1) ∧
    (∀ text, (∀ j, j + 1 < n → ∃ e, doRequest (network j) = .rejected e ∧
        includes "ECONNRESET".data e.data = true) →
      doRequest (network (n - 1)) = .resolved text →
      (Fetcher.fetch network retries).result = .resolved text ∧
      (Fetcher.fetch network retries).requests = n) ∧
    (∀ e, doRequest (network 0) = .rejected e →
      includes "EAI_AGAIN".data e.data = false → includes "ETIMEDOUT".data e.data = false →
      includes "ECONNRESET".data e.data = false →
      (Fetcher.fetch network retries).result = .rejected e ∧
      (Fetcher.fetch network retries).requests = 1) := by
  have hpos : 1 ≤ n := by
    rcases hn with ⟨_, rfl⟩ | ⟨_, rfl⟩ | ⟨_, rfl⟩ | ⟨_, h1⟩ <;> omega
  rw [fetch_eq_loop network retries n hn]
  obtain ⟨i, _, h2, h3, h4, h5, h6, h7⟩ := fetch_loop_spec network (n - 1) 0
  have hi : i < n := by omega
  have h6' : ∀ j, j < i → ∃ e, doRequest (network j) = .rejected e ∧ transient e = true :=
    fun j hj => h6 j (Nat.zero_le _) hj
  have hfirst : ∀ o, doRequest (network 0) = o → (∀ e, o = .rejected e → transient e = false) →
      i = 0 := by
    intro o ho hno
    by_contra hne
    obtain ⟨e2, he2, ht2⟩ := h6' 0 (by omega)
    rw [ho] at he2
    rw [hno e2 he2] at ht2
    cases ht2
  refine ⟨⟨i, hi, h3, h4, h5, ?_, ?_⟩, ?_, ?_, ?_⟩
  · intro j hj
    obtain ⟨e, he, ht⟩ := h6' j hj
    exact ⟨e, he, (transient_eq_true_iff e).1 ht⟩
  · rcases h7 with h | h | ⟨e, he, hf⟩ | h
    · exact Or.inl (by omega)
    · exact Or.inr (Or.inl h)
    · exact Or.inr (Or.inr (Or.inl ⟨e, he, (transient_eq_false_iff e).1 hf⟩))
    · exact Or.inr (Or.inr (Or.inr h))
  · intro message rest hnet
    have hd : doRequest (network 0) = .uncaught message := by
      simp [doRequest, doRequest.listen, hnet]
    have hi0 := hfirst _ hd (by intro e h; cases h)
    rw [h3, h4, hi0, hd]
    exact ⟨rfl, rfl⟩
  · intro text hfail hok
    have hin : i = n - 1 := by
      by_contra hne
      have hlt : i + 1 < n := by omega
      obtain ⟨e, he, hinc⟩ := hfail i hlt
      have htr : transient e = true := (transient_eq_true_iff e).2 (Or.inr (Or.inr hinc))
      rcases h7 with h | ⟨t, ht⟩ | ⟨e2, he2, hf⟩ | ⟨e2, he2⟩ | hp
      · omega
      · rw [he] at ht
        cases ht
      · rw [he] at he2
        cases he2
        rw [htr] at hf
        cases hf
      · rw [he] at he2
        cases he2
      · rw [he] at hp
        cases hp
    rw [h3, h4, hin, hok]
    exact ⟨rfl, by omega⟩
  · intro e he h1 h2' h3'
    have hf : transient e = false := (transient_eq_false_iff e).2 ⟨h1, h2', h3'⟩
    have hi0 := hfirst _ he (by
      intro e2 h
      cases h
      exact hf)
    rw [h3, h4, hi0, he]
    exact ⟨rfl, rfl⟩

/-- Claim C8 at two concrete networks with three attempts allowed.  When the
connection is reset before any response, `fetch` ends in an uncaught exception
after one request, although the third request would have been answered; when
the reset breaks off a response, `fetch` returns the third answer. -/
theorem fetch_retries_rejections_only_witness :
    ((Fetcher.fetch resetBeforeResponse (.count 3)).result = .uncaught "read ECONNRESET" ∧
      (Fetcher.fetch resetBeforeResponse (.count 3)).requests = 1) ∧
    doRequest (resetBeforeResponse 2) = .resolved "body" ∧
    ((Fetcher.fetch resetDuringResponse (.count 3)).result = .resolved "body" ∧
      (Fetcher.fetch resetDuringResponse (.count 3)).requests = 3) :=
  ⟨(fetch_retries_rejections_only resetBeforeResponse (.count 3) 3
      (Or.inr (Or.inr (Or.inr ⟨rfl, by decide⟩)))).2.1 "read ECONNRESET" [] rfl,
   by decide,
   (fetch_retries_rejections_only resetDuringResponse (.count 3) 3
      (Or.inr (Or.inr (Or.inr ⟨rfl, by decide⟩)))).2.2.1 "body"
      (fun j hj => ⟨"read ECONNRESET", by
        have hlt : j < 2 := by omega
        simp [resetDuringResponse, hlt, doRequest, doRequest.listen], by decide⟩)
      (by decide)⟩

end TypesPublisher
